import Mathlib

/-!
Verification of the domain-availability checking engine.

The development shallowly embeds the core of the checker: the availability
classifier (substring matching of a WHOIS response against a per-TLD
pattern), the WHOIS query wrapper with its server validation, the
single-domain check, the batch orchestrator `checkDomains` (TLD filtering,
cross-product task construction, windowed execution, per-task error
encoding), and the ad-hoc retrying variant `checkDomain`.

Network effects (DNS answers, socket events, per-task settlement of the
concurrent checks) are abstracted by explicit oracle functions, and the
wall clock is threaded explicitly, so every definition is executable.
-/

/-- Boolean test of whether the character list `n` is a prefix of `h`. -/
def strPrefixEq : List Char → List Char → Bool
  | [], _ => true
  | _ :: _, [] => false
  | a :: as, b :: bs => a == b && strPrefixEq as bs

/-- Embedding of the JavaScript `haystack.includes(needle)` test on character
lists: `true` exactly when `needle` occurs contiguously inside `haystack`. -/
def strContains (needle : List Char) : List Char → Bool
  | [] => strPrefixEq needle []
  | b :: bs => strPrefixEq needle (b :: bs) || strContains needle bs

/-- Availability classifier: embedding of `response.includes(availablePattern)`
as it appears in `checkSingleDomain` and in the ad-hoc `checkDomain`. -/
def isAvailable (text pat : String) : Bool :=
  strContains pat.toList text.toList

/-- Embedding of JavaScript `String.prototype.trim` on the character list:
whitespace is removed from both ends. -/
def jsTrim (s : List Char) : List Char :=
  ((s.dropWhile Char.isWhitespace).reverse.dropWhile Char.isWhitespace).reverse

/-- TLD configuration record, as in the `TldConfig` interface. -/
structure TldConfig where
  name : String
  server : String
  availablePattern : String
  enabled : Bool
  displayName : String
deriving DecidableEq

/-- Result record of one domain check, as in the `DomainCheckResult`
interface; the optional `error` field is `none` when absent. -/
structure DomainCheckResult where
  domain : String
  available : Bool
  tld : String
  timestamp : Nat
  error : Option String
deriving DecidableEq

/-- One entry of the `domainsToCheck` list built by `checkDomains`. -/
structure CheckTask where
  domain : String
  tld : String
  server : String
  pattern : String
deriving DecidableEq

/-- Oracle answer of one DNS lookup performed by `hostnameToIp`. -/
inductive DnsResult where
  | ok (ip : String)
  | err (msg : String)
deriving DecidableEq

/-- Oracle answer of one TCP WHOIS exchange: which of the socket events of
`whoisQuery` fires first and, on a clean close, the accumulated response. -/
inductive SocketOutcome where
  | connectTimeout
  | socketError (msg : String)
  | dataTimeout
  | closed (response : String)
deriving DecidableEq

/-- Embedding of `DomainCheckService.whoisQuery`. The server string is first
validated (`!server || server.trim() === ''` rejects with an invalid-server
message composed by the surrounding catch); then the hostname is resolved
through the DNS oracle; then the socket oracle decides the exchange, each
failure event mapped to the message the source builds for it. -/
def whoisQuery (dns : String → DnsResult) (sock : String → String → SocketOutcome)
    (server query : String) : Except String String :=
  if server = "" ∨ jsTrim server.toList = [] then
    Except.error "Invalid server address: Invalid WHOIS server address"
  else
    match dns server with
    | DnsResult.err m => Except.error ("Failed to resolve hostname: " ++ m)
    | DnsResult.ok ip =>
      match sock ip query with
      | SocketOutcome.connectTimeout => Except.error ("Connection timeout for " ++ server)
      | SocketOutcome.socketError m =>
        Except.error ("Failed to connect to WHOIS server: " ++ m)
      | SocketOutcome.dataTimeout => Except.error ("Data receive timeout for " ++ server)
      | SocketOutcome.closed resp => Except.ok resp

/-- Embedding of `DomainCheckService.checkSingleDomain`. The result record is
created with `timestamp: Date.now()` before the WHOIS exchange starts, so the
clock value on entry is `t0`; the exchange then takes `queryDuration`
milliseconds and its settled outcome is `queryOutcome`. The returned pair is
the result together with the clock at completion of the exchange. On success
the response is classified; on failure the error message is recorded and
`available` keeps its initial `false`. -/
def checkSingleDomain (domain whoisServer availablePattern tld : String)
    (t0 queryDuration : Nat) (queryOutcome : Except String String) :
    DomainCheckResult × Nat :=
  let result : DomainCheckResult :=
    { domain := domain, available := false, tld := tld, timestamp := t0, error := none }
  match queryOutcome with
  | Except.ok response =>
    ({ result with available := isAvailable response availablePattern }, t0 + queryDuration)
  | Except.error msg =>
    ({ result with error := some msg }, t0 + queryDuration)

/-- Settlement of one task promise inside a window, as observed by
`Promise.allSettled`: either the `checkSingleDomain` promise fulfilled (with
the settled WHOIS outcome, the clock at its start and the exchange duration),
or it rejected (with the rejection reason's optional message and the clock at
settlement). -/
inductive TaskSettlement where
  | fulfilled (queryOutcome : Except String String) (tStart queryDuration : Nat)
  | rejected (reason : Option String) (tSettle : Nat)

/-- Embedding of `result.reason?.message || 'Unknown error'`: a missing
reason or an empty (falsy) message both yield the fallback text. -/
def rejectionMessage : Option String → String
  | some m => if m = "" then "Unknown error" else m
  | none => "Unknown error"

/-- Result pushed by `checkDomains` for the task at global position `i`:
the fulfilled value of `checkSingleDomain`, or the synthesized error record
of the rejected branch. -/
def settleTask (env : Nat → TaskSettlement) (i : Nat) (t : CheckTask) : DomainCheckResult :=
  match env i with
  | TaskSettlement.fulfilled q t0 d =>
    (checkSingleDomain t.domain t.server t.pattern t.tld t0 d q).1
  | TaskSettlement.rejected reason ts =>
    { domain := t.domain, available := false, tld := t.tld, timestamp := ts,
      error := some ("Error: " ++ rejectionMessage reason) }

/-- Results pushed for a run of consecutive tasks starting at global
position `i`, in task order: this is what `Promise.allSettled` followed by
the index-ordered `forEach` push produces for one window, and, chained over
windows, for the whole batch. -/
def settleAll (env : Nat → TaskSettlement) : Nat → List CheckTask → List DomainCheckResult
  | _, [] => []
  | i, t :: ts => settleTask env i t :: settleAll env (i + 1) ts

/-- Concurrency window size of `checkDomains` (`concurrencyLimit = 3`). -/
def concurrencyLimit : Nat := 3

/-- Embedding of the chunking loop
`for (i = 0; i < len; i += limit) chunks.push(slice(i, i + limit))`:
consecutive windows of `n` tasks, the last window possibly shorter. The
`n = 0` case never arises (the source uses the constant 3). Structural
recursion on a fuel argument keeps the function kernel-reducible; every
window consumes at least one element, so fuel equal to the list length
suffices. -/
def chunkListFuel {α : Type} : Nat → Nat → List α → List (List α)
  | _, _, [] => []
  | _, 0, _ :: _ => []
  | 0, _ + 1, _ :: _ => []
  | n + 1, fuel + 1, x :: xs =>
    ((x :: xs).take (n + 1)) :: chunkListFuel (n + 1) fuel (xs.drop n)

/-- Windowing function of `checkDomains`, defined as the full-fuel run of
`chunkListFuel` (the fuel, one unit per element, is never exhausted because
every window consumes at least one element). -/
def chunkList {α : Type} (n : Nat) (l : List α) : List (List α) :=
  chunkListFuel n l.length l

/-- Sequential processing of the windows (`for (const chunk of chunks)`),
threading the global position of the first task of each window. -/
def processChunks (env : Nat → TaskSettlement) :
    Nat → List (List CheckTask) → List DomainCheckResult
  | _, [] => []
  | base, c :: cs => settleAll env base c ++ processChunks env (base + c.length) cs

/-- Embedding of the task-construction double loop of `checkDomains`:
keywords outer, valid TLDs inner; for each TLD the first configuration with
a matching name supplies the server and pattern, and the task is pushed only
when such a configuration exists. -/
def buildTasks (cfgs : List TldConfig) (keywords validTlds : List String) : List CheckTask :=
  keywords.flatMap (fun keyword =>
    validTlds.filterMap (fun tld =>
      (cfgs.find? (fun config => config.name == tld)).map (fun config =>
        { domain := keyword ++ "." ++ tld, tld := tld,
          server := config.server, pattern := config.availablePattern })))

/-- Predicate of the TLD validation filter of `checkDomains`: some
configuration has the requested name and is enabled. -/
def validTldFilter (cfgs : List TldConfig) (tld : String) : Bool :=
  cfgs.any (fun config => config.name == tld && config.enabled)

/-- Embedding of `DomainCheckService.checkDomains`: filter the requested
TLDs, fail when none is valid, build the cross-product task list, split it
into windows of `concurrencyLimit`, and settle the windows in order. The
per-task settlement oracle `env` abstracts the network behaviour of each
concurrent check. -/
def checkDomains (cfgs : List TldConfig) (env : Nat → TaskSettlement)
    (keywords tlds : List String) : Except String (List DomainCheckResult) :=
  let validTlds := tlds.filter (validTldFilter cfgs)
  if validTlds.length == 0 then
    Except.error "No valid TLDs selected"
  else
    let domainsToCheck := buildTasks cfgs keywords validTlds
    let chunks := chunkList concurrencyLimit domainsToCheck
    Except.ok (processChunks env 0 chunks)

/-- Embedding of the retry loop of the ad-hoc `checkDomain` of
DomainMegaBot: starting with `retries = 3`, attempt the WHOIS query; on
success break with the response; on failure decrement, give up when the
counter reaches zero, otherwise sleep 1000 ms and try again. The oracle
`attempts` gives the outcome of the k-th attempt. Returned: the response (if
some attempt succeeded), the number of attempts made, and the total sleep
time in milliseconds. -/
def checkDomainLoop (attempts : Nat → Except String String) :
    Nat → Nat → Option String × Nat × Nat
  | _, 0 => (none, 0, 0)
  | k, retries + 1 =>
    match attempts k with
    | Except.ok resp => (some resp, 1, 0)
    | Except.error _ =>
      match retries with
      | 0 => (none, 1, 0)
      | _ + 1 =>
        let rest := checkDomainLoop attempts (k + 1) retries
        (rest.1, rest.2.1 + 1, rest.2.2 + 1000)

/-- Embedding of the ad-hoc `checkDomain` of DomainMegaBot: run the retry
loop, then classify `if (response && response.includes(noMatchPattern))`,
where a null or empty (falsy) response yields `false`. Returned: the
availability verdict, the number of attempts made, and the total sleep
time in milliseconds. -/
def checkDomain (attempts : Nat → Except String String) (noMatchPattern : String) :
    Bool × Nat × Nat :=
  let loopOut := checkDomainLoop attempts 0 3
  (match loopOut.1 with
   | some r => decide (r ≠ "") && isAvailable r noMatchPattern
   | none => false, loopOut.2.1, loopOut.2.2)

/-- Sample configuration used by concrete instantiations: the default `.com`
entry of the service's fallback configuration. -/
def comCfg : TldConfig :=
  { name := "com", server := "whois.verisign-grs.com", availablePattern := "No match for",
    enabled := true, displayName := ".com" }

/-- Settlement oracle in which every task's WHOIS query fulfills with the
response `"No match for"` at clock 0 after 1 ms. -/
def envAllOk : Nat → TaskSettlement :=
  fun _ => TaskSettlement.fulfilled (Except.ok "No match for") 0 1

/-- Settlement oracle in which every task's promise rejects with the message
`"ECONNREFUSED"` at clock 42. -/
def envAllRejected : Nat → TaskSettlement :=
  fun _ => TaskSettlement.rejected (some "ECONNREFUSED") 42

/-- Sample check task for `tesla.com` against the `.com` configuration. -/
def sampleTask : CheckTask :=
  { domain := "tesla.com", tld := "com", server := "whois.verisign-grs.com",
    pattern := "No match for" }

/-- Result list that `checkDomains [comCfg] envAllOk ["tesla"] ["com"]`
computes to. -/
def sampleResults : List DomainCheckResult :=
  [{ domain := "tesla.com", available := true, tld := "com", timestamp := 0, error := none }]

/-- Batch of seven identical tasks, used to exercise the window partition. -/
def sevenTasks : List CheckTask := List.replicate 7 sampleTask

/-- DNS oracle that fails every lookup, used to observe whether the resolver
is consulted at all. -/
def dnsStub : String → DnsResult := fun _ => DnsResult.err "resolver consulted"

/-- Socket oracle in which every exchange closes cleanly with a fixed
response. -/
def sockStub : String → String → SocketOutcome := fun _ _ => SocketOutcome.closed "response"

/-- Full-fuel runs of `chunkListFuel` agree for any two sufficient fuels. -/
theorem chunkListFuel_congr {α : Type} (m : Nat) :
    ∀ (fuel fuel2 : Nat) (l : List α), l.length ≤ fuel → l.length ≤ fuel2 →
      chunkListFuel (m + 1) fuel l = chunkListFuel (m + 1) fuel2 l := by
  intro fuel
  induction fuel with
  | zero =>
    intro fuel2 l hl hl2
    cases l with
    | nil => cases fuel2 <;> rfl
    | cons x xs => simp at hl
  | succ f ih =>
    intro fuel2 l hl hl2
    cases l with
    | nil => cases fuel2 <;> rfl
    | cons x xs =>
      cases fuel2 with
      | zero => simp at hl2
      | succ f2 =>
        simp only [chunkListFuel]
        congr 1
        apply ih
        · simp at hl ⊢; omega
        · simp at hl2 ⊢; omega

/-- Unfolding equation of the windowing function on a non-empty list: one
window of `m + 1` elements is peeled off and the rest is windowed. -/
theorem chunkList_cons {α : Type} (m : Nat) (x : α) (xs : List α) :
    chunkList (m + 1) (x :: xs) =
      ((x :: xs).take (m + 1)) :: chunkList (m + 1) (xs.drop m) := by
  show chunkListFuel (m + 1) (xs.length + 1) (x :: xs) = _
  simp only [chunkListFuel]
  congr 1
  exact chunkListFuel_congr m xs.length (xs.drop m).length (xs.drop m)
    (by simp) (Nat.le_refl _)

/-- Concatenating the windows gives back the task list: no task is dropped
or duplicated by the chunking loop. -/
theorem chunkList_flatten {α : Type} (m : Nat) :
    ∀ (bound : Nat) (l : List α), l.length ≤ bound →
      (chunkList (m + 1) l).flatten = l := by
  intro bound
  induction bound with
  | zero =>
    intro l hl
    have hnil : l = [] := List.length_eq_zero.mp (by omega)
    subst hnil; rfl
  | succ bd ih =>
    intro l hl
    cases l with
    | nil => rfl
    | cons x xs =>
      rw [chunkList_cons, List.flatten_cons, ih (xs.drop m) (by simp at hl; simp; omega)]
      rw [List.take_succ_cons]
      show x :: (xs.take m ++ xs.drop m) = x :: xs
      rw [List.take_append_drop]

/-- Every window produced by the chunking loop is non-empty and holds at
most `m + 1` tasks. -/
theorem chunkList_window_bounds {α : Type} (m : Nat) :
    ∀ (bound : Nat) (l : List α), l.length ≤ bound →
      ∀ w ∈ chunkList (m + 1) l, w ≠ [] ∧ w.length ≤ m + 1 := by
  intro bound
  induction bound with
  | zero =>
    intro l hl w hw
    have hnil : l = [] := List.length_eq_zero.mp (by omega)
    subst hnil; simp [chunkList, chunkListFuel] at hw
  | succ bd ih =>
    intro l hl w hw
    cases l with
    | nil => simp [chunkList, chunkListFuel] at hw
    | cons x xs =>
      rw [chunkList_cons] at hw
      rcases List.mem_cons.mp hw with h | h
      · subst h
        constructor
        · simp [List.take_succ_cons]
        · simp
      · exact ih (xs.drop m) (by simp at hl; simp; omega) w h

/-- Any list of exactly seven elements is windowed by size 3 into windows of
sizes 3, 3 and 1. -/
theorem chunkList_seven {α : Type} (l : List α) (hl : l.length = 7) :
    (chunkList 3 l).map List.length = [3, 3, 1] := by
  rcases l with _ | ⟨a, _ | ⟨b, _ | ⟨c, _ | ⟨d, _ | ⟨e, _ | ⟨f, _ | ⟨g, _ | ⟨x, t⟩⟩⟩⟩⟩⟩⟩⟩ <;>
    simp_all [chunkList, chunkListFuel]

/-- Settling a run of tasks yields exactly one result per task. -/
theorem settleAll_length (env : Nat → TaskSettlement) :
    ∀ (l : List CheckTask) (b : Nat), (settleAll env b l).length = l.length := by
  intro l
  induction l with
  | nil => intro b; rfl
  | cons t ts ih => intro b; simp [settleAll, ih]

/-- Settling distributes over concatenation of task runs, with the base
position shifted by the length of the first run. -/
theorem settleAll_append (env : Nat → TaskSettlement) :
    ∀ (l1 l2 : List CheckTask) (b : Nat),
      settleAll env b (l1 ++ l2) = settleAll env b l1 ++ settleAll env (b + l1.length) l2 := by
  intro l1
  induction l1 with
  | nil => intro l2 b; simp [settleAll]
  | cons t ts ih =>
    intro l2 b
    show settleTask env b t :: settleAll env (b + 1) (ts ++ l2) =
      (settleTask env b t :: settleAll env (b + 1) ts) ++
        settleAll env (b + (t :: ts).length) l2
    have harith : b + (t :: ts).length = b + 1 + ts.length := by
      simp [List.length_cons]; omega
    rw [harith, ih l2 (b + 1), List.cons_append]

/-- Position `i` of the settled run starting at base `b` is the settlement
of task `i` of the run, at global position `b + i`. -/
theorem settleAll_get (env : Nat → TaskSettlement) :
    ∀ (l : List CheckTask) (b i : Nat) (hi : i < (settleAll env b l).length)
      (hi2 : i < l.length),
      (settleAll env b l).get ⟨i, hi⟩ = settleTask env (b + i) (l.get ⟨i, hi2⟩) := by
  intro l
  induction l with
  | nil => intro b i hi hi2; simp at hi2
  | cons t ts ih =>
    intro b i hi hi2
    cases i with
    | zero => simp [settleAll]
    | succ j =>
      have hj : j < (settleAll env (b + 1) ts).length := by
        simpa [settleAll] using hi
      have hj2 : j < ts.length := by simpa using hi2
      show (settleAll env (b + 1) ts).get ⟨j, hj⟩ =
        settleTask env (b + (j + 1)) (ts.get ⟨j, hj2⟩)
      rw [ih (b + 1) j hj hj2]
      congr 1
      omega

/-- Every result of a settled run is the settlement of some task. -/
theorem settleAll_mem (env : Nat → TaskSettlement) :
    ∀ (l : List CheckTask) (b : Nat) (r : DomainCheckResult), r ∈ settleAll env b l →
      ∃ i t, r = settleTask env i t := by
  intro l
  induction l with
  | nil => intro b r hr; simp [settleAll] at hr
  | cons t ts ih =>
    intro b r hr
    rcases List.mem_cons.mp hr with h | h
    · exact ⟨b, t, h⟩
    · exact ih (b + 1) r h

/-- Any settled result carrying an error is marked unavailable. -/
theorem settleTask_error_available (env : Nat → TaskSettlement) (i : Nat) (t : CheckTask)
    (h : (settleTask env i t).error.isSome = true) :
    (settleTask env i t).available = false := by
  unfold settleTask at h ⊢
  revert h
  cases env i with
  | fulfilled q t0 d =>
    intro h
    cases q with
    | ok r => simp [checkSingleDomain] at h
    | error m => simp [checkSingleDomain]
  | rejected reason ts => intro h; rfl

/-- Processing the windows of a task list in order settles the whole list in
order: the windowed orchestration equals the serial settlement. -/
theorem processChunks_chunkList (env : Nat → TaskSettlement) (m : Nat) :
    ∀ (bound : Nat) (l : List CheckTask) (b : Nat), l.length ≤ bound →
      processChunks env b (chunkList (m + 1) l) = settleAll env b l := by
  intro bound
  induction bound with
  | zero =>
    intro l b hl
    have hnil : l = [] := List.length_eq_zero.mp (by omega)
    subst hnil; rfl
  | succ bd ih =>
    intro l b hl
    cases l with
    | nil => rfl
    | cons x xs =>
      rw [chunkList_cons]
      show settleAll env b ((x :: xs).take (m + 1)) ++
          processChunks env (b + ((x :: xs).take (m + 1)).length)
            (chunkList (m + 1) (xs.drop m)) =
        settleAll env b (x :: xs)
      rw [ih (xs.drop m) _ (by simp at hl; simp; omega)]
      rw [← settleAll_append]
      congr 1
      rw [List.take_succ_cons]
      show x :: (xs.take m ++ xs.drop m) = x :: xs
      rw [List.take_append_drop]

/-- Mapping an everywhere-defined partial function over a list keeps its
length. -/
theorem filterMap_length_of_isSome {α β : Type} (f : α → Option β) :
    ∀ (l : List α), (∀ a ∈ l, (f a).isSome) → (l.filterMap f).length = l.length := by
  intro l
  induction l with
  | nil => simp
  | cons a as ih =>
    intro h
    rcases Option.isSome_iff_exists.mp (h a (List.mem_cons_self a as)) with ⟨b, hb⟩
    simp [List.filterMap_cons, hb, ih (fun x hx => h x (List.mem_cons_of_mem a hx))]

/-- A TLD that passes the validation filter has a configuration of the same
name, so `find?` succeeds when the task for it is built. -/
theorem find?_isSome_of_valid (cfgs : List TldConfig) (t : String)
    (h : validTldFilter cfgs t = true) :
    (cfgs.find? (fun config => config.name == t)).isSome := by
  unfold validTldFilter at h
  rw [List.find?_isSome]
  rcases List.any_eq_true.mp h with ⟨c, hc, hct⟩
  rw [Bool.and_eq_true] at hct
  exact ⟨c, hc, hct.1⟩

/-- Task construction yields exactly one task per (keyword, valid TLD) pair
when every valid TLD has a configuration of its name. -/
theorem buildTasks_length (cfgs : List TldConfig) (validTlds : List String)
    (hv : ∀ t ∈ validTlds, (cfgs.find? (fun config => config.name == t)).isSome) :
    ∀ (keywords : List String),
      (buildTasks cfgs keywords validTlds).length = keywords.length * validTlds.length := by
  intro keywords
  induction keywords with
  | nil => simp [buildTasks]
  | cons k ks ih =>
    unfold buildTasks at ih ⊢
    rw [List.flatMap_cons, List.length_append, ih]
    have hfm : (validTlds.filterMap (fun tld =>
        (cfgs.find? (fun config => config.name == tld)).map (fun config =>
          ({ domain := k ++ "." ++ tld, tld := tld, server := config.server,
             pattern := config.availablePattern } : CheckTask)))).length = validTlds.length := by
      apply filterMap_length_of_isSome
      intro t ht
      simpa [Option.isSome_map] using hv t ht
    rw [hfm, List.length_cons]
    ring

/-- When at least one requested TLD is valid, `checkDomains` succeeds and
its result is the in-order settlement of the cross-product task list. -/
theorem checkDomains_ok_eq (cfgs : List TldConfig) (env : Nat → TaskSettlement)
    (keywords tlds : List String) (h : tlds.filter (validTldFilter cfgs) ≠ []) :
    checkDomains cfgs env keywords tlds =
      Except.ok (settleAll env 0
        (buildTasks cfgs keywords (tlds.filter (validTldFilter cfgs)))) := by
  have hlen : ((tlds.filter (validTldFilter cfgs)).length == 0) = false := by
    cases hfe : tlds.filter (validTldFilter cfgs) with
    | nil => exact absurd hfe h
    | cons a l => rfl
  simp only [checkDomains, hlen, Bool.false_eq_true, if_false]
  congr 1
  have h3 : concurrencyLimit = 2 + 1 := rfl
  rw [h3]
  exact processChunks_chunkList env 2
    (buildTasks cfgs keywords (tlds.filter (validTldFilter cfgs))).length _ 0 (Nat.le_refl _)

/-- When no requested TLD passes the validation filter, `checkDomains` fails
with the no-valid-TLDs message. -/
theorem checkDomains_error_of_empty (cfgs : List TldConfig) (env : Nat → TaskSettlement)
    (keywords tlds : List String) (h : tlds.filter (validTldFilter cfgs) = []) :
    checkDomains cfgs env keywords tlds = Except.error "No valid TLDs selected" := by
  simp [checkDomains, h]

/-- Boolean prefix test agrees with the prefix relation. -/
theorem strPrefixEq_iff (n : List Char) :
    ∀ (h : List Char), strPrefixEq n h = true ↔ n <+: h := by
  induction n with
  | nil => intro h; simp [strPrefixEq]
  | cons a as ih =>
    intro h
    cases h with
    | nil => simp [strPrefixEq]
    | cons b bs => simp [strPrefixEq, List.cons_prefix_cons, ih, And.comm]

/-- Boolean containment test agrees with the contiguous-sublist relation. -/
theorem strContains_iff (n : List Char) :
    ∀ (h : List Char), strContains n h = true ↔ n <:+: h := by
  intro h
  induction h with
  | nil => simp [strContains, strPrefixEq_iff, List.infix_iff_prefix_suffix]
  | cons b bs ih => simp [strContains, strPrefixEq_iff, ih, List.infix_cons_iff]

/-- C1: for every keywords list and every TLD list containing at least one
TLD that is present and enabled in the registry, `checkDomains` returns a
result list whose length equals the number of keywords times the number of
valid TLDs; one result per task, for any per-task settlement behaviour, so
no task is dropped. -/
theorem checkDomains_result_length (cfgs : List TldConfig) (env : Nat → TaskSettlement)
    (keywords tlds : List String)
    (h : ∃ t ∈ tlds, validTldFilter cfgs t = true) :
    ∃ results, checkDomains cfgs env keywords tlds = Except.ok results ∧
      results.length = keywords.length * (tlds.filter (validTldFilter cfgs)).length := by
  rcases h with ⟨t, ht, hvt⟩
  have hne : tlds.filter (validTldFilter cfgs) ≠ [] :=
    List.ne_nil_of_mem (List.mem_filter.mpr ⟨ht, hvt⟩)
  refine ⟨_, checkDomains_ok_eq cfgs env keywords tlds hne, ?_⟩
  rw [settleAll_length]
  exact buildTasks_length cfgs _
    (fun t2 ht2 => find?_isSome_of_valid cfgs t2 (List.of_mem_filter ht2)) keywords

/-- Witness for C1: one keyword and the enabled `.com` TLD give one result. -/
theorem checkDomains_result_length_witness :
    ∃ results, checkDomains [comCfg] envAllOk ["tesla"] ["com"] = Except.ok results ∧
      results.length = (["tesla"] : List String).length *
        ((["com"] : List String).filter (validTldFilter [comCfg])).length :=
  checkDomains_result_length [comCfg] envAllOk ["tesla"] ["com"] ⟨"com", by decide, by decide⟩

/-- C2: `checkDomains` fails with the no-valid-TLDs error exactly when the
filter of the requested TLDs against present-and-enabled registry entries is
empty; that message is the only error the call can produce, and with at
least one valid TLD the call succeeds for every per-task settlement
behaviour, failures being encoded into the result's `error` field (both for
a rejected task promise and for a WHOIS failure caught inside
`checkSingleDomain`). -/
theorem checkDomains_noValidTlds_iff (cfgs : List TldConfig) (env : Nat → TaskSettlement)
    (keywords tlds : List String) :
    (checkDomains cfgs env keywords tlds = Except.error "No valid TLDs selected" ↔
      tlds.filter (validTldFilter cfgs) = []) ∧
    (∀ e, checkDomains cfgs env keywords tlds = Except.error e →
      e = "No valid TLDs selected") ∧
    (tlds.filter (validTldFilter cfgs) ≠ [] →
      ∃ results, checkDomains cfgs env keywords tlds = Except.ok results) ∧
    (∀ i t reason ts, env i = TaskSettlement.rejected reason ts →
      (settleTask env i t).error = some ("Error: " ++ rejectionMessage reason)) ∧
    (∀ i t m t0 d, env i = TaskSettlement.fulfilled (Except.error m) t0 d →
      (settleTask env i t).error = some m) := by
  refine ⟨⟨?_, ?_⟩, ?_, ?_, ?_, ?_⟩
  · intro herr
    by_contra hne
    rw [checkDomains_ok_eq cfgs env keywords tlds hne] at herr
    exact Except.noConfusion herr
  · intro hemp
    exact checkDomains_error_of_empty cfgs env keywords tlds hemp
  · intro e herr
    by_cases hne : tlds.filter (validTldFilter cfgs) = []
    · rw [checkDomains_error_of_empty cfgs env keywords tlds hne] at herr
      injection herr with h2
      exact h2.symm
    · rw [checkDomains_ok_eq cfgs env keywords tlds hne] at herr
      exact Except.noConfusion herr
  · intro hne
    exact ⟨_, checkDomains_ok_eq cfgs env keywords tlds hne⟩
  · intro i t reason ts henv
    unfold settleTask
    rw [henv]
  · intro i t m t0 d henv
    unfold settleTask
    rw [henv]
    simp [checkSingleDomain]

/-- Witness for C2: with the enabled `.com` TLD requested, the call
succeeds. -/
theorem checkDomains_noValidTlds_iff_witness :
    ∃ results, checkDomains [comCfg] envAllOk ["tesla"] ["com"] = Except.ok results :=
  (checkDomains_noValidTlds_iff [comCfg] envAllOk ["tesla"] ["com"]).2.2.1 (by decide)

/-- C3: the result list of a successful `checkDomains` call has exactly the
length of the cross-product task list (keywords outer, valid TLDs inner),
and result `i` is the settlement of task `i`, for every settlement oracle —
the returned order tracks submission order, not completion order. -/
theorem checkDomains_preserves_task_order (cfgs : List TldConfig) (env : Nat → TaskSettlement)
    (keywords tlds : List String) (results : List DomainCheckResult)
    (h : checkDomains cfgs env keywords tlds = Except.ok results) :
    results.length =
      (buildTasks cfgs keywords (tlds.filter (validTldFilter cfgs))).length ∧
    ∀ i (hi : i < results.length)
      (hi2 : i < (buildTasks cfgs keywords (tlds.filter (validTldFilter cfgs))).length),
      results.get ⟨i, hi⟩ =
        settleTask env i
          ((buildTasks cfgs keywords (tlds.filter (validTldFilter cfgs))).get ⟨i, hi2⟩) := by
  have hne : tlds.filter (validTldFilter cfgs) ≠ [] := by
    intro hemp
    rw [checkDomains_error_of_empty cfgs env keywords tlds hemp] at h
    exact Except.noConfusion h
  rw [checkDomains_ok_eq cfgs env keywords tlds hne] at h
  injection h with h2
  subst h2
  constructor
  · exact settleAll_length env _ 0
  · intro i hi hi2
    have hg := settleAll_get env _ 0 i hi hi2
    simpa using hg

/-- Witness for C3: the one-keyword one-TLD batch returns its single result
in task position 0. -/
theorem checkDomains_preserves_task_order_witness :
    sampleResults.length =
      (buildTasks [comCfg] ["tesla"]
        ((["com"] : List String).filter (validTldFilter [comCfg]))).length ∧
    ∀ i (hi : i < sampleResults.length)
      (hi2 : i < (buildTasks [comCfg] ["tesla"]
        ((["com"] : List String).filter (validTldFilter [comCfg]))).length),
      sampleResults.get ⟨i, hi⟩ =
        settleTask envAllOk i
          ((buildTasks [comCfg] ["tesla"]
            ((["com"] : List String).filter (validTldFilter [comCfg]))).get ⟨i, hi2⟩) :=
  checkDomains_preserves_task_order [comCfg] envAllOk ["tesla"] ["com"] sampleResults rfl

/-- C4: a result of `checkDomains` that carries an error is never marked
available, and the same invariant holds for every value produced by
`checkSingleDomain` directly. -/
theorem error_implies_not_available (cfgs : List TldConfig) (env : Nat → TaskSettlement)
    (keywords tlds : List String) (results : List DomainCheckResult)
    (h : checkDomains cfgs env keywords tlds = Except.ok results) :
    (∀ r ∈ results, r.error.isSome = true → r.available = false) ∧
    (∀ (domain server pat tld : String) (t0 d : Nat) (q : Except String String),
      ((checkSingleDomain domain server pat tld t0 d q).1.error).isSome = true →
      (checkSingleDomain domain server pat tld t0 d q).1.available = false) := by
  constructor
  · intro r hr herr
    have hne : tlds.filter (validTldFilter cfgs) ≠ [] := by
      intro hemp
      rw [checkDomains_error_of_empty cfgs env keywords tlds hemp] at h
      exact Except.noConfusion h
    rw [checkDomains_ok_eq cfgs env keywords tlds hne] at h
    injection h with h2
    subst h2
    rcases settleAll_mem env _ 0 r hr with ⟨i, t, rfl⟩
    exact settleTask_error_available env i t herr
  · intro domain server pat tld t0 d q hq
    cases q with
    | ok r => simp [checkSingleDomain] at hq
    | error m => simp [checkSingleDomain]

/-- Witness for C4: the error result of a batch whose task promise rejected
is marked unavailable. -/
theorem error_implies_not_available_witness :
    ({ domain := "tesla.com", available := false, tld := "com", timestamp := 42,
       error := some "Error: ECONNREFUSED" } : DomainCheckResult).available = false :=
  (error_implies_not_available [comCfg] envAllRejected ["tesla"] ["com"]
      [{ domain := "tesla.com", available := false, tld := "com", timestamp := 42,
         error := some "Error: ECONNREFUSED" }] rfl).1
    _ (by decide) (by decide)

/-- C5: the availability classification is true exactly when the pattern
occurs in the response text as a literal, case-sensitive substring; in
particular `"No match for EXAMPLE.COM"` matches the pattern
`"No match for"` and `"Domain Name: EXAMPLE.COM"` does not. -/
theorem isAvailable_substring_iff :
    (∀ text pat : String, isAvailable text pat = true ↔
      ∃ pre post : List Char, text.toList = pre ++ pat.toList ++ post) ∧
    isAvailable "No match for EXAMPLE.COM" "No match for" = true ∧
    isAvailable "Domain Name: EXAMPLE.COM" "No match for" = false := by
  refine ⟨?_, by decide, by decide⟩
  intro text pat
  rw [isAvailable, strContains_iff]
  constructor
  · rintro ⟨s, t2, hst⟩
    exact ⟨s, t2, hst.symm⟩
  · rintro ⟨s, t2, hst⟩
    exact ⟨s, t2, hst.symm⟩

/-- C6: the batch is partitioned into consecutive windows of the fixed
concurrency limit 3 — concatenating them restores the task list, every
window is non-empty with at most 3 tasks, and a batch of 7 tasks gives
exactly the window sizes 3, 3, 1. -/
theorem checkDomains_window_partition (l : List CheckTask) :
    (chunkList concurrencyLimit l).flatten = l ∧
    (∀ w ∈ chunkList concurrencyLimit l, w ≠ [] ∧ w.length ≤ concurrencyLimit) ∧
    (l.length = 7 → (chunkList concurrencyLimit l).map List.length = [3, 3, 1]) := by
  refine ⟨?_, ?_, ?_⟩
  · show (chunkList (2 + 1) l).flatten = l
    exact chunkList_flatten 2 l.length l (Nat.le_refl _)
  · show ∀ w ∈ chunkList (2 + 1) l, w ≠ [] ∧ w.length ≤ 2 + 1
    exact chunkList_window_bounds 2 l.length l (Nat.le_refl _)
  · intro h7
    show (chunkList 3 l).map List.length = [3, 3, 1]
    exact chunkList_seven l h7

/-- Witness for C6: a concrete batch of 7 tasks is windowed as 3, 3, 1. -/
theorem checkDomains_window_partition_witness :
    (chunkList concurrencyLimit sevenTasks).map List.length = [3, 3, 1] :=
  (checkDomains_window_partition sevenTasks).2.2 rfl

/-- C7: the ad-hoc `checkDomain` attempts the WHOIS query at most 3 times
with a 1000 ms wait between consecutive attempts; when every attempt fails
it returns `false` after 3 attempts and 2000 ms of waiting instead of
propagating the error, and when attempt `k` is the first to succeed it stops
after `k + 1` attempts and classifies that attempt's response. -/
theorem checkDomain_retry_policy (attempts : Nat → Except String String) (pat : String) :
    ((∀ k, k < 3 → ∃ m, attempts k = Except.error m) →
      checkDomain attempts pat = (false, 3, 2000)) ∧
    (∀ k r, k < 3 → (∀ j, j < k → ∃ m, attempts j = Except.error m) →
      attempts k = Except.ok r →
      checkDomain attempts pat = ((decide (r ≠ "") && isAvailable r pat), k + 1, 1000 * k)) ∧
    (checkDomain attempts pat).2.1 ≤ 3 := by
  refine ⟨?_, ?_, ?_⟩
  · intro h
    rcases h 0 (by omega) with ⟨m0, h0⟩
    rcases h 1 (by omega) with ⟨m1, h1⟩
    rcases h 2 (by omega) with ⟨m2, h2⟩
    simp [checkDomain, checkDomainLoop, h0, h1, h2]
  · intro k r hk hprev hok
    interval_cases k
    · simp [checkDomain, checkDomainLoop, hok]
    · rcases hprev 0 (by omega) with ⟨m0, h0⟩
      simp [checkDomain, checkDomainLoop, h0, hok]
    · rcases hprev 0 (by omega) with ⟨m0, h0⟩
      rcases hprev 1 (by omega) with ⟨m1, h1⟩
      simp [checkDomain, checkDomainLoop, h0, h1, hok]
  · cases ha0 : attempts 0 with
    | ok r0 => simp [checkDomain, checkDomainLoop, ha0]
    | error m0 =>
      cases ha1 : attempts 1 with
      | ok r1 => simp [checkDomain, checkDomainLoop, ha0, ha1]
      | error m1 =>
        cases ha2 : attempts 2 with
        | ok r2 => simp [checkDomain, checkDomainLoop, ha0, ha1, ha2]
        | error m2 => simp [checkDomain, checkDomainLoop, ha0, ha1, ha2]

/-- Witness for C7: when every attempt fails with a connection timeout, the
call gives up after 3 attempts and 2000 ms of waiting, reporting
unavailability. -/
theorem checkDomain_retry_policy_witness :
    checkDomain (fun _ => Except.error "Connection timeout") "No match for" =
      (false, 3, 2000) :=
  (checkDomain_retry_policy (fun _ => Except.error "Connection timeout") "No match for").1
    (fun _ _ => ⟨"Connection timeout", rfl⟩)

/-- C8 (amended): the `timestamp` of a `checkSingleDomain` result is the
clock at the start of the check, before the WHOIS exchange which completes
only at `t0 + d`; only the synthesized result for a rejected task promise
carries the settlement-time clock. -/
theorem checkSingleDomain_timestamp_start (domain server pat tld : String)
    (t0 d : Nat) (q : Except String String) :
    (checkSingleDomain domain server pat tld t0 d q).1.timestamp = t0 ∧
    (checkSingleDomain domain server pat tld t0 d q).2 = t0 + d ∧
    (∀ (env : Nat → TaskSettlement) (i : Nat) (t : CheckTask) (reason : Option String)
      (ts : Nat), env i = TaskSettlement.rejected reason ts →
      (settleTask env i t).timestamp = ts) := by
  refine ⟨?_, ?_, ?_⟩
  · cases q <;> rfl
  · cases q <;> rfl
  · intro env i t reason ts henv
    unfold settleTask
    rw [henv]

/-- Witness for C8 (amended): a check entered at clock 7 stamps 7, and a
task promise rejected at clock 42 stamps 42. -/
theorem checkSingleDomain_timestamp_start_witness :
    (checkSingleDomain "tesla.com" "whois.verisign-grs.com" "No match for" "com" 7 5
      (Except.ok "No match for")).1.timestamp = 7 ∧
    (settleTask envAllRejected 0 sampleTask).timestamp = 42 :=
  ⟨(checkSingleDomain_timestamp_start "tesla.com" "whois.verisign-grs.com" "No match for"
      "com" 7 5 (Except.ok "No match for")).1,
    (checkSingleDomain_timestamp_start "tesla.com" "whois.verisign-grs.com" "No match for"
      "com" 7 5 (Except.ok "No match for")).2.2 envAllRejected 0 sampleTask
      (some "ECONNREFUSED") 42 rfl⟩

/-- Counterexample for C8 as stated: a successful check entered at clock 0
whose WHOIS exchange completes at clock 5 carries timestamp 0, not the
completion time — the timestamp is recorded before the exchange. -/
theorem checkSingleDomain_timestamp_counterexample :
    (checkSingleDomain "example.com" "whois.verisign-grs.com" "No match for" "com" 0 5
      (Except.ok "No match for example.com")).2 = 5 ∧
    (checkSingleDomain "example.com" "whois.verisign-grs.com" "No match for" "com" 0 5
      (Except.ok "No match for example.com")).1.timestamp = 0 ∧
    (checkSingleDomain "example.com" "whois.verisign-grs.com" "No match for" "com" 0 5
        (Except.ok "No match for example.com")).1.timestamp ≠
      (checkSingleDomain "example.com" "whois.verisign-grs.com" "No match for" "com" 0 5
        (Except.ok "No match for example.com")).2 :=
  ⟨rfl, rfl, by decide⟩

/-- C9 (amended): `whoisQuery` fails with the invalid-server error — without
consulting the resolver or the socket — exactly when the server string
trims to nothing (empty or all-whitespace); otherwise it proceeds to DNS
resolution, surfacing the resolver's failure message. -/
theorem whoisQuery_invalid_server_characterisation (server query : String) :
    (jsTrim server.toList = [] ↔
      ∀ (dns : String → DnsResult) (sock : String → String → SocketOutcome),
        whoisQuery dns sock server query =
          Except.error "Invalid server address: Invalid WHOIS server address") ∧
    (jsTrim server.toList ≠ [] →
      ∀ (sock : String → String → SocketOutcome) (m : String),
        whoisQuery (fun _ => DnsResult.err m) sock server query =
          Except.error ("Failed to resolve hostname: " ++ m)) := by
  have hemp : server = "" → jsTrim server.toList = [] := by
    intro he; subst he; rfl
  constructor
  · constructor
    · intro htrim dns sock
      unfold whoisQuery
      rw [if_pos (Or.inr htrim)]
    · intro hall
      by_contra htrim
      have h1 := hall (fun _ => DnsResult.err "zz") (fun _ _ => SocketOutcome.closed "")
      unfold whoisQuery at h1
      rw [if_neg (fun hor => htrim (Or.elim hor hemp id))] at h1
      simp at h1
  · intro htrim sock m
    unfold whoisQuery
    rw [if_neg (fun hor => htrim (Or.elim hor hemp id))]

/-- Witness for C9 (amended): a real server name is not rejected and the
resolver is consulted. -/
theorem whoisQuery_invalid_server_characterisation_witness :
    whoisQuery (fun _ => DnsResult.err "boom") sockStub "whois.verisign-grs.com" "tesla.com" =
      Except.error ("Failed to resolve hostname: " ++ "boom") :=
  (whoisQuery_invalid_server_characterisation "whois.verisign-grs.com" "tesla.com").2
    (by decide) sockStub "boom"

/-- Counterexample for C9 as stated: the non-empty, all-whitespace server
string `" "` is also rejected with the invalid-server error, even though a
DNS oracle that would report being consulted is installed — so the failure
condition is not exactly `server = ""`. -/
theorem whoisQuery_blank_server_counterexample :
    (" " : String) ≠ "" ∧
    whoisQuery dnsStub sockStub " " "example.com" =
      Except.error "Invalid server address: Invalid WHOIS server address" :=
  ⟨by decide, rfl⟩

/-- C10: with an empty keywords list and at least one valid TLD,
`checkDomains` succeeds with the empty result list — no non-emptiness
precondition is enforced on keywords. -/
theorem checkDomains_empty_keywords (cfgs : List TldConfig) (env : Nat → TaskSettlement)
    (tlds : List String) (h : tlds.filter (validTldFilter cfgs) ≠ []) :
    checkDomains cfgs env [] tlds = Except.ok [] := by
  rw [checkDomains_ok_eq cfgs env [] tlds h]
  rfl

/-- Witness for C10: no keywords against the enabled `.com` TLD yields the
empty result list. -/
theorem checkDomains_empty_keywords_witness :
    checkDomains [comCfg] envAllOk [] ["com"] = Except.ok [] :=
  checkDomains_empty_keywords [comCfg] envAllOk ["com"] (by decide)
